import Mathlib

/-!
Shallow embedding of the job scheduler of `src/scheduler/scheduler.py`
(class `ContentScheduler`), together with proofs about its failure
handling, retry backoff, history bookkeeping and facade operations.

Timestamps are modelled as natural numbers (seconds).  The callable held
by a job, its positional/keyword arguments and its free-form metadata
play no role in the verified properties and are omitted from the model.
-/

namespace Socials

/-- Job execution status (`class JobStatus(Enum)`). -/
inductive JobStatus
  | pending
  | running
  | completed
  | failed
  | missed
deriving DecidableEq

/-- Types of scheduled jobs (`class JobType(Enum)`). -/
inductive JobType
  | content_generation
  | instagram_publishing
  | content_review
  | maintenance
deriving DecidableEq

/-- The `.value` string of a `JobType` member. -/
def JobType.value : JobType → String
  | JobType.content_generation => "content_generation"
  | JobType.instagram_publishing => "instagram_publishing"
  | JobType.content_review => "content_review"
  | JobType.maintenance => "maintenance"

/-- Registry metadata of a scheduled job (`class ScheduledJob`).
`trigger_args` is the trigger keyword dictionary, modelled as an
association list from argument name to numeric value. -/
structure ScheduledJob where
  job_id : String
  job_type : JobType
  status : JobStatus
  last_run : Option Nat
  run_count : Nat
  error_count : Nat
  last_error : Option String
  trigger_type : String
  trigger_args : List (String × Nat)
deriving DecidableEq

/-- An entry of the APScheduler job store.  Only the pieces the verified
properties talk about are kept: the id, the trigger kind, the one-off
run date of a `date` trigger, and whether the entry is paused. -/
structure StoredJob where
  id : String
  trigger : String
  run_date : Option Nat
  paused : Bool
deriving DecidableEq

/-- An entry of `self.job_history` (the dict appended by
`_job_executed_listener`). -/
structure HistoryEntry where
  job_id : String
  job_type : String
  status : JobStatus
  executed_at : Nat
  exception : Option String
deriving DecidableEq

/-- The mutable state of a `ContentScheduler`: the APScheduler job
store, the registry `self.jobs` (a dict, modelled as an association
list) and the execution history `self.job_history`. -/
structure SchedulerState where
  store : List StoredJob
  jobs : List (String × ScheduledJob)
  job_history : List HistoryEntry
deriving DecidableEq

/-- APScheduler execution events.  `_job_executed_listener` is
registered for `EVENT_JOB_EXECUTED | EVENT_JOB_ERROR | EVENT_JOB_MISSED`. -/
inductive EventCode
  | executed
  | error
  | missed
deriving DecidableEq

/-- A `JobExecutionEvent` as seen by the listener.  APScheduler
dispatches `EVENT_JOB_MISSED` as a `JobExecutionEvent` whose
`exception` field is `None`, so a missed event always carries
`exception := none`. -/
structure JobEvent where
  code : EventCode
  job_id : String
  exception : Option String
deriving DecidableEq

/-- Dictionary lookup in the registry (`self.jobs[job_id]` /
`job_id in self.jobs`). -/
def regLookup : List (String × ScheduledJob) → String → Option ScheduledJob
  | [], _ => none
  | p :: rest, id => if p.1 = id then some p.2 else regLookup rest id

/-- In-place mutation of the registry entry with the given key
(the Python listener mutates the `ScheduledJob` object held in the
dict). -/
def regUpdate (jobs : List (String × ScheduledJob)) (id : String)
    (j : ScheduledJob) : List (String × ScheduledJob) :=
  jobs.map (fun p => if p.1 = id then (p.1, j) else p)

/-- Dictionary assignment `self.jobs[job_id] = scheduled_job`:
overwrite an existing key, otherwise append. -/
def regInsert (jobs : List (String × ScheduledJob)) (id : String)
    (j : ScheduledJob) : List (String × ScheduledJob) :=
  if jobs.any (fun p => p.1 == id) then regUpdate jobs id j
  else jobs ++ [(id, j)]

/-- Whether the APScheduler job store holds an entry with this id. -/
def storeHas (store : List StoredJob) (id : String) : Bool :=
  store.any (fun e => e.id == id)

/-- The ids of the job-store entries, in store order. -/
def storeIds (store : List StoredJob) : List String :=
  store.map (fun e => e.id)

/-- How many job-store entries carry this id. -/
def countId (store : List StoredJob) (id : String) : Nat :=
  (store.filter (fun e => e.id == id)).length

/-- The first job-store entry with this id, if any. -/
def storeFind (store : List StoredJob) (id : String) : Option StoredJob :=
  store.find? (fun e => e.id == id)

/-- Semantics of `scheduler.add_job(..., replace_existing=True)`: any entry with the
same id is replaced by the new entry. -/
def schedAddJob (store : List StoredJob) (j : StoredJob) : List StoredJob :=
  store.filter (fun e => e.id != j.id) ++ [j]

/-- Python list slice `l[s:]` for an integer start index `s`:
a negative start counts back from the end of the list. -/
def pySliceFrom (l : List α) (s : Int) : List α :=
  if s < 0 then l.drop ((l.length : Int) + s).toNat
  else l.drop s.toNat

/-- Whether an `Except` computation finished without raising. -/
def exceptIsOk : Except ε α → Bool
  | Except.ok _ => true
  | Except.error _ => false

/-- The constant `max_retries = 3` of `_handle_job_failure`. -/
def max_retries : Nat := 3

/-- The delay `retry_delay = min(60 * (2 ** scheduled_job.error_count), 3600)`. -/
def retryDelay (error_count : Nat) : Nat :=
  min (60 * 2 ^ error_count) 3600

/-- The derived id `f"{scheduled_job.job_id}_retry_{scheduled_job.error_count}"`. -/
def retryJobId (job_id : String) (error_count : Nat) : String :=
  job_id ++ "_retry_" ++ toString error_count

/-- Model of `ContentScheduler._handle_job_failure`: when `error_count <= max_retries`,
register a one-off `date`-triggered retry entry under the derived id with
`replace_existing=True`; otherwise only log and change nothing. -/
def handle_job_failure (st : SchedulerState) (now : Nat)
    (j : ScheduledJob) : SchedulerState :=
  if j.error_count ≤ max_retries then
    let entry : StoredJob :=
      { id := retryJobId j.job_id j.error_count
      , trigger := "date"
      , run_date := some (now + retryDelay j.error_count)
      , paused := false }
    { st with store := schedAddJob st.store entry }
  else st

/-- The history bookkeeping at the end of `_job_executed_listener`:
append the execution record, then keep only the last 1000 entries
(`self.job_history = self.job_history[-1000:]` when the length
exceeds 1000). -/
def appendHistory (st : SchedulerState) (now : Nat) (jid : String)
    (sj : ScheduledJob) (exc : Option String) : SchedulerState :=
  let h := st.job_history ++
    [{ job_id := jid
     , job_type := sj.job_type.value
     , status := sj.status
     , executed_at := now
     , exception := exc }]
  { st with job_history := if h.length > 1000 then pySliceFrom h (-1000) else h }

/-- Model of `ContentScheduler._job_executed_listener`.  The branch is chosen by
`if event.exception:` alone — the event code is not inspected. -/
def job_executed_listener (st : SchedulerState) (now : Nat)
    (ev : JobEvent) : SchedulerState :=
  match regLookup st.jobs ev.job_id with
  | none => st
  | some sj =>
    match ev.exception with
    | some exc =>
      let sj1 : ScheduledJob :=
        { sj with status := JobStatus.failed
                , error_count := sj.error_count + 1
                , last_error := some exc }
      appendHistory
        (handle_job_failure { st with jobs := regUpdate st.jobs ev.job_id sj1 } now sj1)
        now ev.job_id sj1 (some exc)
    | none =>
      let sj1 : ScheduledJob :=
        { sj with status := JobStatus.completed
                , run_count := sj.run_count + 1
                , last_run := some now }
      appendHistory { st with jobs := regUpdate st.jobs ev.job_id sj1 }
        now ev.job_id sj1 none

/-- Model of `ContentScheduler._validate_trigger_args`.  For `interval` triggers
only the presence of one of the four time-unit keys is checked; `cron`
is passed through; `date` requires the `run_date` key. -/
def validate_trigger_args (trigger_type : String)
    (trigger_args : List (String × Nat)) : Except String Unit :=
  if trigger_type = "interval" then
    if ["seconds", "minutes", "hours", "days"].any
        (fun k => trigger_args.any (fun p => p.1 == k)) then
      Except.ok ()
    else Except.error "Interval trigger requires at least one time unit"
  else if trigger_type = "cron" then Except.ok ()
  else if trigger_type = "date" then
    if trigger_args.any (fun p => p.1 == "run_date") then Except.ok ()
    else Except.error "Date trigger requires run_date argument"
  else Except.ok ()

/-- Model of `ContentScheduler.add_job` with an explicit `job_id` (the
`job_id=None` case draws a fresh uuid-based id and is outside the
model).  The method first runs `_validate_trigger_args` and then calls
the third-party `self.scheduler.add_job(...)`, which can itself raise —
for an unknown trigger type, an out-of-range cron field value, an
unexpected interval keyword argument, and similar.  That acceptance
decision is APScheduler behaviour, not code of this repository, so it
is a parameter `schedRegister` of the model.  Either failure is
re-wrapped as `SchedulingError` by the enclosing `except` clause; on
success the job is stored with `replace_existing=True` semantics and
recorded in the registry. -/
def add_job (schedRegister : String → List (String × Nat) → Except String Unit)
    (st : SchedulerState) (job_id : String) (job_type : JobType)
    (trigger_type : String) (trigger_args : List (String × Nat)) :
    Except String (SchedulerState × String) :=
  match validate_trigger_args trigger_type trigger_args with
  | Except.error m => Except.error ("Failed to schedule job: " ++ m)
  | Except.ok _ =>
   match schedRegister trigger_type trigger_args with
   | Except.error m => Except.error ("Failed to schedule job: " ++ m)
   | Except.ok _ =>
    let sj : ScheduledJob :=
      { job_id := job_id
      , job_type := job_type
      , status := JobStatus.pending
      , last_run := none
      , run_count := 0
      , error_count := 0
      , last_error := none
      , trigger_type := trigger_type
      , trigger_args := trigger_args }
    let stored : StoredJob :=
      { id := job_id
      , trigger := trigger_type
      , run_date := (trigger_args.find? (fun p => p.1 == "run_date")).map (fun p => p.2)
      , paused := false }
    Except.ok
      ({ st with store := schedAddJob st.store stored
               , jobs := regInsert st.jobs job_id sj }, job_id)

/-- Model of `ContentScheduler.remove_job`: `scheduler.remove_job` raises
`JobLookupError` when the id is not in the store; the `except` clause
turns that into a `False` return with nothing changed.  When the id is
present it is removed from the store and, if registered, from the
registry, and `True` is returned. -/
def remove_job (st : SchedulerState) (job_id : String) :
    SchedulerState × Bool :=
  if storeHas st.store job_id then
    ({ st with store := st.store.filter (fun e => e.id != job_id)
             , jobs := st.jobs.filter (fun p => p.1 != job_id) }, true)
  else (st, false)

/-- Model of `ContentScheduler.pause_job`: `scheduler.pause_job` suspends the
stored entry (raising when the id is unknown, re-wrapped as
`SchedulingError`), then the registry status is set to
`JobStatus.PENDING`. -/
def pause_job (st : SchedulerState) (job_id : String) :
    Except String SchedulerState :=
  if storeHas st.store job_id then
    let store2 := st.store.map (fun e => if e.id == job_id then { e with paused := true } else e)
    let jobs2 :=
      match regLookup st.jobs job_id with
      | some sj => regUpdate st.jobs job_id { sj with status := JobStatus.pending }
      | none => st.jobs
    Except.ok { st with store := store2, jobs := jobs2 }
  else Except.error "Failed to pause job"

/-- Model of `ContentScheduler.resume_job`: the mirror image of `pause_job`,
also setting the registry status to `JobStatus.PENDING`. -/
def resume_job (st : SchedulerState) (job_id : String) :
    Except String SchedulerState :=
  if storeHas st.store job_id then
    let store2 := st.store.map (fun e => if e.id == job_id then { e with paused := false } else e)
    let jobs2 :=
      match regLookup st.jobs job_id with
      | some sj => regUpdate st.jobs job_id { sj with status := JobStatus.pending }
      | none => st.jobs
    Except.ok { st with store := store2, jobs := jobs2 }
  else Except.error "Failed to resume job"

/-- Model of `ContentScheduler.get_job_history`: `self.job_history[-limit:]`. -/
def get_job_history (st : SchedulerState) (limit : Nat) : List HistoryEntry :=
  pySliceFrom st.job_history (-(limit : Int))

/-- The scheduler operations that act on an existing registration
(execution events, pause, resume, remove).  `add_job` on an existing id
replaces the registry entry with a freshly constructed `ScheduledJob`,
i.e. it creates a new job entity rather than operating on the old one,
so it is not among these. -/
inductive JobOp
  | event (now : Nat) (ev : JobEvent)
  | pause (id : String)
  | resume (id : String)
  | removeJob (id : String)

/-- Apply one operation to the scheduler state; a facade call that
raises leaves the state unchanged. -/
def applyOp (st : SchedulerState) : JobOp → SchedulerState
  | JobOp.event now ev => job_executed_listener st now ev
  | JobOp.pause id =>
    match pause_job st id with
    | Except.ok st2 => st2
    | Except.error _ => st
  | JobOp.resume id =>
    match resume_job st id with
    | Except.ok st2 => st2
    | Except.error _ => st
  | JobOp.removeJob id => (remove_job st id).1

/-! ### Concrete instances used in closed theorems -/

/-- A registered interval job with the given status and counters. -/
def sampleJob (id : String) (stat : JobStatus) (rc ec : Nat) : ScheduledJob :=
  { job_id := id
  , job_type := JobType.content_generation
  , status := stat
  , last_run := none
  , run_count := rc
  , error_count := ec
  , last_error := none
  , trigger_type := "interval"
  , trigger_args := [("seconds", 30)] }

/-- A stored interval entry with the given id. -/
def sampleStored (id : String) : StoredJob :=
  { id := id, trigger := "interval", run_date := none, paused := false }

/-- A sample history record. -/
def sampleHist (id : String) (t : Nat) : HistoryEntry :=
  { job_id := id
  , job_type := "content_generation"
  , status := JobStatus.completed
  , executed_at := t
  , exception := none }

/-- A failure event for the given job id. -/
def failEvent (id : String) : JobEvent :=
  { code := EventCode.error, job_id := id, exception := some "boom" }

/-- A missed-fire event for the given job id (APScheduler delivers these
with `exception = None`). -/
def missEvent (id : String) : JobEvent :=
  { code := EventCode.missed, job_id := id, exception := none }

/-! ### Basic lemmas about the registry, the store and Python slices -/

theorem regLookup_regUpdate_self (jobs : List (String × ScheduledJob))
    (id : String) (sj j : ScheduledJob) (h : regLookup jobs id = some sj) :
    regLookup (regUpdate jobs id j) id = some j := by
  induction jobs with
  | nil => simp [regLookup] at h
  | cons a t ih =>
    simp only [regUpdate, List.map_cons] at ih ⊢
    simp only [regLookup] at h
    by_cases ha : a.1 = id
    · rw [if_pos ha]
      simp only [regLookup]
      rw [if_pos ha]
    · rw [if_neg ha]
      simp only [regLookup]
      rw [if_neg ha]
      rw [if_neg ha] at h
      exact ih h

theorem regLookup_regUpdate_ne (jobs : List (String × ScheduledJob))
    (id k : String) (j : ScheduledJob) (h : k ≠ id) :
    regLookup (regUpdate jobs id j) k = regLookup jobs k := by
  induction jobs with
  | nil => rfl
  | cons a t ih =>
    simp only [regUpdate, List.map_cons] at ih ⊢
    by_cases ha : a.1 = id
    · have hk : ¬ a.1 = k := by rw [ha]; exact fun hh => h hh.symm
      rw [if_pos ha]
      simp only [regLookup]
      rw [if_neg (by simpa [ha] using hk), if_neg hk]
      exact ih
    · rw [if_neg ha]
      simp only [regLookup]
      by_cases hk : a.1 = k
      · rw [if_pos hk, if_pos hk]
      · rw [if_neg hk, if_neg hk]
        exact ih

theorem regLookup_filter_self (jobs : List (String × ScheduledJob)) (id : String) :
    regLookup (jobs.filter (fun p => p.1 != id)) id = none := by
  induction jobs with
  | nil => rfl
  | cons a t ih =>
    rw [List.filter_cons]
    by_cases ha : a.1 = id
    · rw [if_neg (by simp [ha])]
      exact ih
    · rw [if_pos (by simp [ha])]
      simp only [regLookup]
      rw [if_neg ha]
      exact ih

theorem regLookup_filter_ne (jobs : List (String × ScheduledJob))
    (id k : String) (h : k ≠ id) :
    regLookup (jobs.filter (fun p => p.1 != id)) k = regLookup jobs k := by
  induction jobs with
  | nil => rfl
  | cons a t ih =>
    rw [List.filter_cons]
    by_cases ha : a.1 = id
    · have hk : ¬ a.1 = k := by rw [ha]; exact fun hh => h hh.symm
      rw [if_neg (by simp [ha])]
      rw [show regLookup (a :: t) k = regLookup t k by
        simp only [regLookup]; rw [if_neg hk]]
      exact ih
    · rw [if_pos (by simp [ha])]
      simp only [regLookup]
      by_cases hk : a.1 = k
      · rw [if_pos hk, if_pos hk]
      · rw [if_neg hk, if_neg hk]
        exact ih

theorem storeIds_filter_ne (s : List StoredJob) (i : String) :
    storeIds (s.filter (fun e => e.id != i)) = (storeIds s).filter (fun x => x != i) := by
  induction s with
  | nil => rfl
  | cons a t ih =>
    by_cases ha : a.id = i
    · simpa [List.filter_cons, storeIds, ha] using ih
    · simpa [List.filter_cons, storeIds, ha] using ih

theorem storeIds_schedAddJob (s : List StoredJob) (j : StoredJob) :
    storeIds (schedAddJob s j) = (storeIds s).filter (fun x => x != j.id) ++ [j.id] := by
  unfold schedAddJob
  rw [show storeIds (s.filter (fun e => e.id != j.id) ++ [j]) =
      storeIds (s.filter (fun e => e.id != j.id)) ++ [j.id] by simp [storeIds]]
  rw [storeIds_filter_ne]

theorem countId_filter_out (s : List StoredJob) (i : String) :
    countId (s.filter (fun e => e.id != i)) i = 0 := by
  induction s with
  | nil => rfl
  | cons a t ih =>
    by_cases ha : a.id = i
    · simp [List.filter_cons, ha, countId] at ih ⊢
    · simp [List.filter_cons, ha, countId] at ih ⊢

theorem countId_schedAddJob_self (s : List StoredJob) (j : StoredJob) :
    countId (schedAddJob s j) j.id = 1 := by
  unfold schedAddJob countId
  rw [List.filter_append]
  have h0 : countId (s.filter (fun e => e.id != j.id)) j.id = 0 := countId_filter_out s j.id
  unfold countId at h0
  simp [h0]

theorem storeFind_schedAddJob_self (s : List StoredJob) (j : StoredJob) :
    storeFind (schedAddJob s j) j.id = some j := by
  unfold schedAddJob storeFind
  induction s with
  | nil => simp
  | cons a t ih =>
    by_cases ha : a.id = j.id
    · simp only [List.filter_cons, ha]
      simp only [bne_self_eq_false, if_neg (by simp : ¬ (false = true))]
      exact ih
    · simp only [List.filter_cons]
      rw [if_pos (by simp [ha])]
      rw [List.cons_append]
      rw [show List.find? (fun e => e.id == j.id) (a :: (List.filter (fun e => e.id != j.id) t ++ [j])) = List.find? (fun e => e.id == j.id) (List.filter (fun e => e.id != j.id) t ++ [j]) by
        simp [List.find?_cons, ha]]
      exact ih

theorem filter_schedAddJob (s : List StoredJob) (j : StoredJob) :
    (schedAddJob s j).filter (fun e => e.id != j.id) = s.filter (fun e => e.id != j.id) := by
  unfold schedAddJob
  rw [List.filter_append]
  have h2 : ([j].filter (fun e => e.id != j.id)) = [] := by simp
  rw [h2, List.append_nil]
  induction s with
  | nil => rfl
  | cons a t ih =>
    by_cases ha : a.id = j.id
    · simp [List.filter_cons, ha] at ih ⊢
    · simp [List.filter_cons, ha] at ih ⊢

theorem pySliceFrom_neg (l : List α) (k : Nat) (hk : 1 ≤ k) :
    pySliceFrom l (-(k : Int)) = l.drop (l.length - k) := by
  unfold pySliceFrom
  have hneg : -(k : Int) < 0 := by
    have : (0 : Int) < (k : Int) := by exact_mod_cast hk
    omega
  rw [if_pos hneg]
  congr 1
  rw [show (l.length : Int) + -(k : Int) = (l.length : Int) - (k : Int) by ring]
  exact Int.toNat_sub l.length k

theorem pySliceFrom_zero (l : List α) : pySliceFrom l (-((0 : Nat) : Int)) = l := by
  unfold pySliceFrom
  norm_num

/-! ### Structural lemmas about the listener and the failure handler -/

theorem appendHistory_store (st : SchedulerState) (now : Nat) (jid : String)
    (sj : ScheduledJob) (exc : Option String) :
    (appendHistory st now jid sj exc).store = st.store := rfl

theorem appendHistory_jobs (st : SchedulerState) (now : Nat) (jid : String)
    (sj : ScheduledJob) (exc : Option String) :
    (appendHistory st now jid sj exc).jobs = st.jobs := rfl

theorem handle_job_failure_jobs (st : SchedulerState) (now : Nat)
    (j : ScheduledJob) : (handle_job_failure st now j).jobs = st.jobs := by
  unfold handle_job_failure
  split <;> rfl

theorem handle_job_failure_history (st : SchedulerState) (now : Nat)
    (j : ScheduledJob) :
    (handle_job_failure st now j).job_history = st.job_history := by
  unfold handle_job_failure
  split <;> rfl

theorem handle_job_failure_store_le (st : SchedulerState) (now : Nat)
    (j : ScheduledJob) (h : j.error_count ≤ max_retries) :
    (handle_job_failure st now j).store =
      schedAddJob st.store
        { id := retryJobId j.job_id j.error_count
        , trigger := "date"
        , run_date := some (now + retryDelay j.error_count)
        , paused := false } := by
  unfold handle_job_failure
  rw [if_pos h]

theorem handle_job_failure_store_gt (st : SchedulerState) (now : Nat)
    (j : ScheduledJob) (h : ¬ j.error_count ≤ max_retries) :
    handle_job_failure st now j = st := by
  unfold handle_job_failure
  rw [if_neg h]

/-- Failure branch of the listener: the registry entry is mutated to
`failed` with the error counter incremented and the error recorded. -/
theorem listener_jobs_failure (st : SchedulerState) (now : Nat) (ev : JobEvent)
    (sj : ScheduledJob) (exc : String)
    (hreg : regLookup st.jobs ev.job_id = some sj)
    (hexc : ev.exception = some exc) :
    (job_executed_listener st now ev).jobs =
      regUpdate st.jobs ev.job_id
        { sj with status := JobStatus.failed
                , error_count := sj.error_count + 1
                , last_error := some exc } := by
  simp only [job_executed_listener, hreg, hexc]
  rw [appendHistory_jobs, handle_job_failure_jobs]

/-- Success branch of the listener: the registry entry is mutated to
`completed` with the run counter incremented and the run time recorded. -/
theorem listener_jobs_success (st : SchedulerState) (now : Nat) (ev : JobEvent)
    (sj : ScheduledJob)
    (hreg : regLookup st.jobs ev.job_id = some sj)
    (hexc : ev.exception = none) :
    (job_executed_listener st now ev).jobs =
      regUpdate st.jobs ev.job_id
        { sj with status := JobStatus.completed
                , run_count := sj.run_count + 1
                , last_run := some now } := by
  simp only [job_executed_listener, hreg, hexc]
  rw [appendHistory_jobs]

/-- Failure with retries remaining: the store gains (or replaces) the
derived one-off retry entry. -/
theorem listener_store_failure_le (st : SchedulerState) (now : Nat) (ev : JobEvent)
    (sj : ScheduledJob) (exc : String)
    (hreg : regLookup st.jobs ev.job_id = some sj)
    (hexc : ev.exception = some exc)
    (hle : sj.error_count + 1 ≤ max_retries) :
    (job_executed_listener st now ev).store =
      schedAddJob st.store
        { id := retryJobId sj.job_id (sj.error_count + 1)
        , trigger := "date"
        , run_date := some (now + retryDelay (sj.error_count + 1))
        , paused := false } := by
  simp only [job_executed_listener, hreg, hexc]
  rw [appendHistory_store]
  rw [handle_job_failure_store_le _ _ _ (by simpa using hle)]

/-- Failure past the retry bound: the store is untouched. -/
theorem listener_store_failure_gt (st : SchedulerState) (now : Nat) (ev : JobEvent)
    (sj : ScheduledJob) (exc : String)
    (hreg : regLookup st.jobs ev.job_id = some sj)
    (hexc : ev.exception = some exc)
    (hgt : ¬ sj.error_count + 1 ≤ max_retries) :
    (job_executed_listener st now ev).store = st.store := by
  simp only [job_executed_listener, hreg, hexc]
  rw [appendHistory_store]
  rw [handle_job_failure_store_gt _ _ _ (by simpa using hgt)]

/-- Success branch of the listener: the store is untouched. -/
theorem listener_store_success (st : SchedulerState) (now : Nat) (ev : JobEvent)
    (sj : ScheduledJob)
    (hreg : regLookup st.jobs ev.job_id = some sj)
    (hexc : ev.exception = none) :
    (job_executed_listener st now ev).store = st.store := by
  simp only [job_executed_listener, hreg, hexc]
  rw [appendHistory_store]

/-- Lemma: `appendHistory` appends exactly one record and keeps the last 1000
entries, dropping the oldest ones. -/
theorem appendHistory_history (st : SchedulerState) (now : Nat) (jid : String)
    (sj : ScheduledJob) (exc : Option String) :
    ∃ e : HistoryEntry,
      (appendHistory st now jid sj exc).job_history =
        if st.job_history.length + 1 > 1000 then
          (st.job_history ++ [e]).drop (st.job_history.length + 1 - 1000)
        else st.job_history ++ [e] := by
  refine ⟨{ job_id := jid, job_type := sj.job_type.value, status := sj.status
          , executed_at := now, exception := exc }, ?_⟩
  simp only [appendHistory, List.length_append, List.length_cons, List.length_nil, Nat.zero_add]
  by_cases hlen : st.job_history.length + 1 > 1000
  · rw [if_pos hlen, if_pos hlen]
    rw [show ((-1000 : Int)) = -((1000 : Nat) : Int) by norm_num]
    rw [pySliceFrom_neg _ 1000 (by norm_num)]
    rw [List.length_append]
    rfl
  · rw [if_neg hlen, if_neg hlen]

/-- For an event about a registered job, the listener appends one record
to the history and keeps the last 1000 entries. -/
theorem listener_history (st : SchedulerState) (now : Nat) (ev : JobEvent)
    (sj : ScheduledJob)
    (hreg : regLookup st.jobs ev.job_id = some sj) :
    ∃ e : HistoryEntry,
      (job_executed_listener st now ev).job_history =
        if st.job_history.length + 1 > 1000 then
          (st.job_history ++ [e]).drop (st.job_history.length + 1 - 1000)
        else st.job_history ++ [e] := by
  cases hexc : ev.exception with
  | none =>
    simp only [job_executed_listener, hreg, hexc]
    exact appendHistory_history _ _ _ _ _
  | some exc =>
    simp only [job_executed_listener, hreg, hexc]
    obtain ⟨e, he⟩ := appendHistory_history (handle_job_failure { st with jobs := regUpdate st.jobs ev.job_id { sj with status := JobStatus.failed, error_count := sj.error_count + 1, last_error := some exc } } now { sj with status := JobStatus.failed, error_count := sj.error_count + 1, last_error := some exc }) now ev.job_id { sj with status := JobStatus.failed, error_count := sj.error_count + 1, last_error := some exc } (some exc)
    rw [handle_job_failure_history] at he
    exact ⟨e, he⟩

/-- After a recorded execution the history length is
`min (previous + 1) 1000`. -/
theorem listener_history_len (st : SchedulerState) (now : Nat) (ev : JobEvent)
    (sj : ScheduledJob)
    (hreg : regLookup st.jobs ev.job_id = some sj)
    (hinv : st.job_history.length ≤ 1000) :
    (job_executed_listener st now ev).job_history.length =
      min (st.job_history.length + 1) 1000 := by
  obtain ⟨e, he⟩ := listener_history st now ev sj hreg
  rw [he]
  by_cases hlen : st.job_history.length + 1 > 1000
  · rw [if_pos hlen, List.length_drop]
    simp only [List.length_append, List.length_cons, List.length_nil]
    omega
  · rw [if_neg hlen]
    simp only [List.length_append, List.length_cons, List.length_nil]
    omega

/-- After a recorded execution, the history without its newest record is
the previous history with the oldest entries evicted first. -/
theorem listener_history_dropLast (st : SchedulerState) (now : Nat) (ev : JobEvent)
    (sj : ScheduledJob)
    (hreg : regLookup st.jobs ev.job_id = some sj)
    (hinv : st.job_history.length ≤ 1000) :
    (job_executed_listener st now ev).job_history.dropLast =
      st.job_history.drop (st.job_history.length + 1 - 1000) := by
  obtain ⟨e, he⟩ := listener_history st now ev sj hreg
  rw [he]
  by_cases hlen : st.job_history.length + 1 > 1000
  · rw [if_pos hlen]
    rw [List.drop_append_of_le_length (by omega)]
    rw [List.dropLast_concat]
  · rw [if_neg hlen]
    rw [List.dropLast_concat]
    rw [show st.job_history.length + 1 - 1000 = 0 by omega, List.drop_zero]

/-- The registry update performed by `pause_job` / `resume_job` touches
only the `status` field: every error counter is unchanged. -/
theorem regStatusUpdate_errorCount (jobs : List (String × ScheduledJob))
    (id jid : String) (sj sj' : ScheduledJob)
    (h1 : regLookup jobs jid = some sj)
    (h2 : regLookup (match regLookup jobs id with
        | some sjp => regUpdate jobs id { sjp with status := JobStatus.pending }
        | none => jobs) jid = some sj') :
    sj'.error_count = sj.error_count := by
  cases hrp : regLookup jobs id with
  | none =>
    rw [hrp] at h2
    rw [h1] at h2
    injection h2 with hh
    subst hh
    rfl
  | some sjp =>
    rw [hrp] at h2
    by_cases hj : jid = id
    · subst hj
      rw [h1] at hrp
      injection hrp with hh
      subst hh
      rw [regLookup_regUpdate_self _ _ _ _ h1] at h2
      injection h2 with hh
      subst hh
      rfl
    · rw [regLookup_regUpdate_ne _ _ _ _ hj] at h2
      rw [h1] at h2
      injection h2 with hh
      subst hh
      rfl

/-- None of the operations on an existing registration ever decreases a
job's lifetime error counter. -/
theorem applyOp_errorCount_mono (st : SchedulerState) (op : JobOp)
    (jid : String) (sj sj' : ScheduledJob)
    (h1 : regLookup st.jobs jid = some sj)
    (h2 : regLookup (applyOp st op).jobs jid = some sj') :
    sj.error_count ≤ sj'.error_count := by
  cases op with
  | event now ev =>
    simp only [applyOp] at h2
    cases hr : regLookup st.jobs ev.job_id with
    | none =>
      simp only [job_executed_listener, hr] at h2
      rw [h1] at h2
      injection h2 with hh
      subst hh
      exact Nat.le_refl _
    | some sj0 =>
      cases hexc : ev.exception with
      | some exc =>
        rw [listener_jobs_failure st now ev sj0 exc hr hexc] at h2
        by_cases hj : jid = ev.job_id
        · subst hj
          rw [h1] at hr
          injection hr with hh
          subst hh
          rw [regLookup_regUpdate_self _ _ _ _ h1] at h2
          injection h2 with hh
          subst hh
          exact Nat.le_succ _
        · rw [regLookup_regUpdate_ne _ _ _ _ hj] at h2
          rw [h1] at h2
          injection h2 with hh
          subst hh
          exact Nat.le_refl _
      | none =>
        rw [listener_jobs_success st now ev sj0 hr hexc] at h2
        by_cases hj : jid = ev.job_id
        · subst hj
          rw [h1] at hr
          injection hr with hh
          subst hh
          rw [regLookup_regUpdate_self _ _ _ _ h1] at h2
          injection h2 with hh
          subst hh
          exact Nat.le_refl _
        · rw [regLookup_regUpdate_ne _ _ _ _ hj] at h2
          rw [h1] at h2
          injection h2 with hh
          subst hh
          exact Nat.le_refl _
  | pause id =>
    by_cases hs : storeHas st.store id = true
    · have hjobs : (applyOp st (JobOp.pause id)).jobs =
          (match regLookup st.jobs id with
            | some sjp => regUpdate st.jobs id { sjp with status := JobStatus.pending }
            | none => st.jobs) := by
        simp only [applyOp, pause_job, hs, if_true]
      rw [hjobs] at h2
      exact Nat.le_of_eq (regStatusUpdate_errorCount st.jobs id jid sj sj' h1 h2).symm
    · have happ : applyOp st (JobOp.pause id) = st := by
        simp [applyOp, pause_job, hs]
      rw [happ] at h2
      rw [h1] at h2
      injection h2 with hh
      subst hh
      exact Nat.le_refl _
  | resume id =>
    by_cases hs : storeHas st.store id = true
    · have hjobs : (applyOp st (JobOp.resume id)).jobs =
          (match regLookup st.jobs id with
            | some sjp => regUpdate st.jobs id { sjp with status := JobStatus.pending }
            | none => st.jobs) := by
        simp only [applyOp, resume_job, hs, if_true]
      rw [hjobs] at h2
      exact Nat.le_of_eq (regStatusUpdate_errorCount st.jobs id jid sj sj' h1 h2).symm
    · have happ : applyOp st (JobOp.resume id) = st := by
        simp [applyOp, resume_job, hs]
      rw [happ] at h2
      rw [h1] at h2
      injection h2 with hh
      subst hh
      exact Nat.le_refl _
  | removeJob id =>
    by_cases hs : storeHas st.store id = true
    · have hjobs : (applyOp st (JobOp.removeJob id)).jobs =
          st.jobs.filter (fun p => p.1 != id) := by
        simp only [applyOp, remove_job, hs, if_true]
      rw [hjobs] at h2
      by_cases hj : jid = id
      · subst hj
        rw [regLookup_filter_self] at h2
        exact absurd h2 (by simp)
      · rw [regLookup_filter_ne _ _ _ hj] at h2
        rw [h1] at h2
        injection h2 with hh
        subst hh
        exact Nat.le_refl _
    · have happ : applyOp st (JobOp.removeJob id) = st := by
        simp [applyOp, remove_job, hs]
      rw [happ] at h2
      rw [h1] at h2
      injection h2 with hh
      subst hh
      exact Nat.le_refl _


/-! ### Claim theorems -/

/-- Concrete state A: one healthy registered job `j1`. -/
def exStA : SchedulerState :=
  { store := [sampleStored "j1"]
  , jobs := [("j1", sampleJob "j1" JobStatus.pending 5 0)]
  , job_history := [] }

/-- Concrete state B: job `j2` has already failed `max_retries` times. -/
def exStB : SchedulerState :=
  { store := [sampleStored "j2"]
  , jobs := [("j2", sampleJob "j2" JobStatus.failed 0 3)]
  , job_history := [] }

/-- Concrete state C: job `j3` together with a still-pending derived
retry entry carrying the id the next failure will derive again. -/
def exStC : SchedulerState :=
  { store := [sampleStored "j3",
      { id := retryJobId "j3" 1, trigger := "date", run_date := some 10, paused := false }]
  , jobs := [("j3", sampleJob "j3" JobStatus.failed 0 0)]
  , job_history := [] }

/-- C1: a failure whose incremented error count is at most `max_retries`
schedules exactly one derived one-off retry — the store ids become the
old ids without the derived id, plus one copy of the derived id — while
a failure past the bound leaves the job store completely unchanged, so
no new derived job id appears; the failure itself increments the
lifetime error counter, and no operation on an existing registration
ever decreases it. -/
theorem C1_retry_bound (stA : SchedulerState) (nowA : Nat) (evA : JobEvent)
    (sjA : ScheduledJob) (excA : String)
    (stB : SchedulerState) (nowB : Nat) (evB : JobEvent)
    (sjB : ScheduledJob) (excB : String)
    (stC : SchedulerState) (opC : JobOp) (jidC : String) (sjC sjC2 : ScheduledJob)
    (hregA : regLookup stA.jobs evA.job_id = some sjA)
    (hexcA : evA.exception = some excA)
    (hleA : sjA.error_count + 1 ≤ max_retries)
    (hregB : regLookup stB.jobs evB.job_id = some sjB)
    (hexcB : evB.exception = some excB)
    (hgtB : max_retries < sjB.error_count + 1)
    (hpreC : regLookup stC.jobs jidC = some sjC)
    (hpostC : regLookup (applyOp stC opC).jobs jidC = some sjC2) :
    storeIds (job_executed_listener stA nowA evA).store =
      (storeIds stA.store).filter (fun x => x != retryJobId sjA.job_id (sjA.error_count + 1))
        ++ [retryJobId sjA.job_id (sjA.error_count + 1)] ∧
    (regLookup (job_executed_listener stA nowA evA).jobs evA.job_id).map
        (fun j => j.error_count) = some (sjA.error_count + 1) ∧
    (job_executed_listener stB nowB evB).store = stB.store ∧
    (regLookup (job_executed_listener stB nowB evB).jobs evB.job_id).map
        (fun j => j.error_count) = some (sjB.error_count + 1) ∧
    sjC.error_count ≤ sjC2.error_count := by
  refine ⟨?_, ?_, ?_, ?_, applyOp_errorCount_mono stC opC jidC sjC sjC2 hpreC hpostC⟩
  · rw [listener_store_failure_le stA nowA evA sjA excA hregA hexcA hleA]
    rw [storeIds_schedAddJob]
  · rw [listener_jobs_failure stA nowA evA sjA excA hregA hexcA]
    rw [regLookup_regUpdate_self _ _ _ _ hregA]
    rfl
  · exact listener_store_failure_gt stB nowB evB sjB excB hregB hexcB (by omega)
  · rw [listener_jobs_failure stB nowB evB sjB excB hregB hexcB]
    rw [regLookup_regUpdate_self _ _ _ _ hregB]
    rfl

/-- C1 at concrete inputs: the first failure of `j1` derives
`j1_retry_1`; a fourth failure of `j2` leaves the store unchanged;
pausing `j1` keeps its error counter. -/
theorem C1_retry_bound_witness :
    storeIds (job_executed_listener exStA 50 (failEvent "j1")).store =
      (storeIds exStA.store).filter (fun x => x != retryJobId "j1" 1)
        ++ [retryJobId "j1" 1] ∧
    (regLookup (job_executed_listener exStA 50 (failEvent "j1")).jobs "j1").map
        (fun j => j.error_count) = some 1 ∧
    (job_executed_listener exStB 60 (failEvent "j2")).store = exStB.store ∧
    (regLookup (job_executed_listener exStB 60 (failEvent "j2")).jobs "j2").map
        (fun j => j.error_count) = some 4 ∧
    (sampleJob "j1" JobStatus.pending 5 0).error_count ≤
      (sampleJob "j1" JobStatus.pending 5 0).error_count :=
  C1_retry_bound exStA 50 (failEvent "j1") (sampleJob "j1" JobStatus.pending 5 0) "boom"
    exStB 60 (failEvent "j2") (sampleJob "j2" JobStatus.failed 0 3) "boom"
    exStA (JobOp.pause "j1") "j1" (sampleJob "j1" JobStatus.pending 5 0)
    (sampleJob "j1" JobStatus.pending 5 0)
    (by decide) (by decide) (by decide) (by decide) (by decide) (by decide)
    (by decide) (by decide)

/-- C2: the retry scheduled after the n-th consecutive failure
(1 ≤ n ≤ max_retries) is a one-off date entry due
`min (60 * 2 ^ n) 3600` seconds from now; the delay is non-decreasing
in the failure number and bounded by 3600 seconds, and failures 1, 2, 3
give 120, 240 and 480 seconds. -/
theorem C2_backoff_monotone (st : SchedulerState) (now : Nat) (ev : JobEvent)
    (sj : ScheduledJob) (exc : String) (n m : Nat)
    (hreg : regLookup st.jobs ev.job_id = some sj)
    (hexc : ev.exception = some exc)
    (hn : sj.error_count + 1 = n)
    (h1 : 1 ≤ n) (h3 : n ≤ max_retries) (hnm : n ≤ m) :
    storeFind (job_executed_listener st now ev).store (retryJobId sj.job_id n) =
      some { id := retryJobId sj.job_id n
           , trigger := "date"
           , run_date := some (now + min (60 * 2 ^ n) 3600)
           , paused := false } ∧
    retryDelay n ≤ retryDelay m ∧
    retryDelay m ≤ 3600 ∧
    retryDelay 1 = 120 ∧ retryDelay 2 = 240 ∧ retryDelay 3 = 480 := by
  subst hn
  refine ⟨?_, ?_, ?_, by decide, by decide, by decide⟩
  · rw [listener_store_failure_le st now ev sj exc hreg hexc h3]
    exact storeFind_schedAddJob_self st.store _
  · unfold retryDelay
    exact min_le_min (Nat.mul_le_mul_left _ (Nat.pow_le_pow_right (by norm_num) hnm)) (le_refl _)
  · unfold retryDelay
    exact min_le_right _ _

/-- C2 at concrete inputs: first failure of `j1`, compared with the
third failure delay. -/
theorem C2_backoff_monotone_witness :
    storeFind (job_executed_listener exStA 50 (failEvent "j1")).store (retryJobId "j1" 1) =
      some { id := retryJobId "j1" 1
           , trigger := "date"
           , run_date := some (50 + min (60 * 2 ^ 1) 3600)
           , paused := false } ∧
    retryDelay 1 ≤ retryDelay 3 ∧
    retryDelay 3 ≤ 3600 ∧
    retryDelay 1 = 120 ∧ retryDelay 2 = 240 ∧ retryDelay 3 = 480 :=
  C2_backoff_monotone exStA 50 (failEvent "j1") (sampleJob "j1" JobStatus.pending 5 0) "boom" 1 3
    (by decide) (by decide) (by decide) (by decide) (by decide) (by decide)

/-- C6: the retry scheduled while retries remain is registered under
exactly the derived id `{job_id}_retry_{error_count}` as a one-off
date-triggered entry; exactly one entry with that id exists afterwards
(a previously pending entry with the same derived id is replaced, not
duplicated) and every other store entry is untouched. -/
theorem C6_retry_replaces (st : SchedulerState) (now : Nat) (ev : JobEvent)
    (sj : ScheduledJob) (exc : String)
    (hreg : regLookup st.jobs ev.job_id = some sj)
    (hexc : ev.exception = some exc)
    (hle : sj.error_count + 1 ≤ max_retries) :
    countId (job_executed_listener st now ev).store
        (retryJobId sj.job_id (sj.error_count + 1)) = 1 ∧
    storeFind (job_executed_listener st now ev).store
        (retryJobId sj.job_id (sj.error_count + 1)) =
      some { id := retryJobId sj.job_id (sj.error_count + 1)
           , trigger := "date"
           , run_date := some (now + retryDelay (sj.error_count + 1))
           , paused := false } ∧
    (job_executed_listener st now ev).store.filter
        (fun e => e.id != retryJobId sj.job_id (sj.error_count + 1)) =
      st.store.filter (fun e => e.id != retryJobId sj.job_id (sj.error_count + 1)) := by
  rw [listener_store_failure_le st now ev sj exc hreg hexc hle]
  refine ⟨countId_schedAddJob_self _ _, storeFind_schedAddJob_self _ _, ?_⟩
  exact filter_schedAddJob st.store
    { id := retryJobId sj.job_id (sj.error_count + 1)
    , trigger := "date"
    , run_date := some (now + retryDelay (sj.error_count + 1))
    , paused := false }

/-- C6 at concrete inputs: `j3` fails while a pending retry entry with
the same derived id `j3_retry_1` already exists — afterwards exactly
one such entry remains. -/
theorem C6_retry_replaces_witness :
    countId (job_executed_listener exStC 99 (failEvent "j3")).store (retryJobId "j3" 1) = 1 ∧
    storeFind (job_executed_listener exStC 99 (failEvent "j3")).store (retryJobId "j3" 1) =
      some { id := retryJobId "j3" 1
           , trigger := "date"
           , run_date := some (99 + retryDelay 1)
           , paused := false } ∧
    (job_executed_listener exStC 99 (failEvent "j3")).store.filter
        (fun e => e.id != retryJobId "j3" 1) =
      exStC.store.filter (fun e => e.id != retryJobId "j3" 1) :=
  C6_retry_replaces exStC 99 (failEvent "j3") (sampleJob "j3" JobStatus.failed 0 0) "boom"
    (by decide) (by decide) (by decide)


/-- Mapping a paused-flag change over the store leaves the ids as they
were. -/
theorem storeIds_pausedMap (s : List StoredJob) (i : String) (b : Bool) :
    storeIds (s.map (fun e => if e.id == i then { e with paused := b } else e)) = storeIds s := by
  induction s with
  | nil => rfl
  | cons a t ih =>
    simp only [storeIds, List.map_cons] at ih ⊢
    by_cases ha : a.id = i
    · rw [if_pos (by simp [ha])]
      rw [show ({ a with paused := b } : StoredJob).id = a.id from rfl]
      rw [ih]
    · rw [if_neg (by simp [ha])]
      rw [ih]

/-- After mapping a paused-flag change over a store that holds the id,
the found entry carries the new flag. -/
theorem storeFind_pausedMap (s : List StoredJob) (i : String) (b : Bool)
    (h : storeHas s i = true) :
    (storeFind (s.map (fun e => if e.id == i then { e with paused := b } else e)) i).map
      (fun e => e.paused) = some b := by
  induction s with
  | nil => simp [storeHas] at h
  | cons a t ih =>
    by_cases ha : a.id = i
    · simp [storeFind, List.find?_cons, ha]
    · have h2 : storeHas t i = true := by
        simpa [storeHas, List.any_cons, ha] using h
      simp only [List.map_cons, storeFind, List.find?_cons] at ih ⊢
      rw [if_neg (by simp [ha])]
      rw [show (a.id == i) = false from by simp [ha]]
      exact ih h2

/-- C3: evaluating `_job_executed_listener` on a missed firing
(APScheduler delivers `EVENT_JOB_MISSED` with `exception = None`): the
listener takes its success branch, so the job's status becomes
`completed` — never `missed`, a value the code defines but never
assigns — `run_count` is incremented from 5 to 6 while `error_count`
stays 0, no store entry is added (no retry), and the history records
the firing as `completed`. -/
theorem C3_missed_event_behaviour :
    (regLookup (job_executed_listener exStA 1000 (missEvent "j1")).jobs "j1").map
        (fun j => (j.status, j.run_count, j.error_count)) =
      some (JobStatus.completed, 6, 0) ∧
    storeIds (job_executed_listener exStA 1000 (missEvent "j1")).store = storeIds exStA.store ∧
    (job_executed_listener exStA 1000 (missEvent "j1")).job_history =
      [{ job_id := "j1", job_type := "content_generation", status := JobStatus.completed
       , executed_at := 1000, exception := none }] := by
  decide

/-- Registration oracle standing for an underlying `scheduler.add_job`
call that accepts its trigger — as APScheduler does for an interval
trigger with `{"seconds": 0}`, whose zero-length interval is coerced
to one second rather than rejected. -/
def acceptingRegister : String → List (String × Nat) → Except String Unit :=
  fun _ _ => Except.ok ()

/-- C4 counterexample: an interval trigger whose only time unit is 0 is
not rejected — `_validate_trigger_args` accepts `{"seconds": 0}`
because only the presence of a time-unit key is checked, never its
value, and `add_job` then succeeds whenever the underlying registration
accepts, which APScheduler does for a zero interval.  No
`SchedulingError` is raised, contradicting the claim. -/
theorem C4_zero_interval_accepted :
    validate_trigger_args "interval" [("seconds", 0)] = Except.ok () ∧
    exceptIsOk (add_job acceptingRegister exStA "jz" JobType.content_generation
      "interval" [("seconds", 0)]) = true := by
  exact ⟨rfl, rfl⟩

/-- Lemma: `add_job` succeeds exactly when both the repository's own
trigger validation and the underlying registration succeed. -/
theorem add_job_isOk (sr : String → List (String × Nat) → Except String Unit)
    (st : SchedulerState) (job_id : String) (job_type : JobType)
    (trigger_type : String) (trigger_args : List (String × Nat)) :
    exceptIsOk (add_job sr st job_id job_type trigger_type trigger_args) =
      (exceptIsOk (validate_trigger_args trigger_type trigger_args) &&
        exceptIsOk (sr trigger_type trigger_args)) := by
  unfold add_job
  cases hv : validate_trigger_args trigger_type trigger_args with
  | error m => simp [exceptIsOk]
  | ok u =>
    cases hsr : sr trigger_type trigger_args with
    | error m => simp [exceptIsOk]
    | ok v => simp [exceptIsOk]

/-- Lemma: `_validate_trigger_args` raises exactly when an `interval`
trigger has none of the four time-unit keys or a `date` trigger has no
`run_date` key. -/
theorem validate_isOk_false_iff (trigger_type : String)
    (trigger_args : List (String × Nat)) :
    exceptIsOk (validate_trigger_args trigger_type trigger_args) = false ↔
      (trigger_type = "interval" ∧
        (["seconds", "minutes", "hours", "days"].any
          (fun k => trigger_args.any (fun p => p.1 == k))) = false) ∨
      (trigger_type = "date" ∧ (trigger_args.any (fun p => p.1 == "run_date")) = false) := by
  by_cases h1 : trigger_type = "interval"
  · subst h1
    by_cases ha : (["seconds", "minutes", "hours", "days"].any
        (fun k => trigger_args.any (fun p => p.1 == k))) = true
    · simp [validate_trigger_args, ha, exceptIsOk]
    · simp [validate_trigger_args, ha, exceptIsOk]
  · by_cases h2 : trigger_type = "cron"
    · subst h2
      simp [validate_trigger_args, exceptIsOk]
    · by_cases h3 : trigger_type = "date"
      · subst h3
        by_cases hr : (trigger_args.any (fun p => p.1 == "run_date")) = true
        · simp [validate_trigger_args, hr, exceptIsOk]
        · simp [validate_trigger_args, hr, exceptIsOk]
      · simp [validate_trigger_args, h1, h2, h3, exceptIsOk]

/-- C4 (amended): `add_job` raises `SchedulingError` iff the
repository's own trigger validation rejects the arguments — which
happens exactly for an `interval` trigger with none of the keys
`seconds`, `minutes`, `hours`, `days` present (the value is not
inspected, so 0 is accepted) and for a `date` trigger without the
`run_date` key — or the underlying APScheduler registration itself
raises (unknown trigger type, malformed cron values, unexpected
keyword arguments); with empty trigger arguments both trigger types
raise regardless of the underlying scheduler. -/
theorem C4_trigger_validation (sr : String → List (String × Nat) → Except String Unit)
    (st : SchedulerState) (job_id : String)
    (job_type : JobType) (trigger_type : String)
    (trigger_args : List (String × Nat)) :
    (exceptIsOk (add_job sr st job_id job_type trigger_type trigger_args) = false ↔
      (trigger_type = "interval" ∧
        (["seconds", "minutes", "hours", "days"].any
          (fun k => trigger_args.any (fun p => p.1 == k))) = false) ∨
      (trigger_type = "date" ∧ (trigger_args.any (fun p => p.1 == "run_date")) = false) ∨
      exceptIsOk (sr trigger_type trigger_args) = false) ∧
    exceptIsOk (add_job sr st job_id job_type "interval" []) = false ∧
    exceptIsOk (add_job sr st job_id job_type "date" []) = false := by
  refine ⟨?_, by rfl, by rfl⟩
  rw [add_job_isOk]
  constructor
  · intro h
    rcases Bool.and_eq_false_iff.mp h with h | h
    · rcases (validate_isOk_false_iff trigger_type trigger_args).mp h with h | h
      · exact Or.inl h
      · exact Or.inr (Or.inl h)
    · exact Or.inr (Or.inr h)
  · intro h
    rcases h with h | h | h
    · exact Bool.and_eq_false_iff.mpr
        (Or.inl ((validate_isOk_false_iff trigger_type trigger_args).mpr (Or.inl h)))
    · exact Bool.and_eq_false_iff.mpr
        (Or.inl ((validate_isOk_false_iff trigger_type trigger_args).mpr (Or.inr h)))
    · exact Bool.and_eq_false_iff.mpr (Or.inr h)

/-- Concrete state for C5: the completed job `j5`. -/
def exStD : SchedulerState :=
  { store := [sampleStored "j5"]
  , jobs := [("j5", sampleJob "j5" JobStatus.completed 7 1)]
  , job_history := [] }

/-- C5 counterexample: pausing the completed job `j5` rewrites its
`status` field from `completed` to `pending`, so `pause_job` does not
leave the status unchanged. -/
theorem C5_pause_changes_status :
    (regLookup exStD.jobs "j5").map (fun j => j.status) = some JobStatus.completed ∧
    (regLookup (applyOp exStD (JobOp.pause "j5")).jobs "j5").map (fun j => j.status) =
      some JobStatus.pending ∧
    JobStatus.pending ≠ JobStatus.completed := by
  decide

/-- C5 (amended): `pause_job` and `resume_job` set the registered job's
`status` to `pending` and leave every other registry field — including
`run_count`, `error_count`, `last_error` and `last_run` — unchanged;
the registration is not lost: the store keeps an entry for the id,
marked paused by `pause_job` and unmarked by `resume_job`. -/
theorem C5_pause_resume_frame (st : SchedulerState) (id : String)
    (sj : ScheduledJob) (st2 : SchedulerState)
    (stR : SchedulerState) (idR : String) (sjR : ScheduledJob) (stR2 : SchedulerState)
    (hreg : regLookup st.jobs id = some sj)
    (hok : pause_job st id = Except.ok st2)
    (hregR : regLookup stR.jobs idR = some sjR)
    (hokR : resume_job stR idR = Except.ok stR2) :
    regLookup st2.jobs id = some { sj with status := JobStatus.pending } ∧
    storeIds st2.store = storeIds st.store ∧
    (storeFind st2.store id).map (fun e => e.paused) = some true ∧
    regLookup stR2.jobs idR = some { sjR with status := JobStatus.pending } ∧
    storeIds stR2.store = storeIds stR.store ∧
    (storeFind stR2.store idR).map (fun e => e.paused) = some false := by
  by_cases hs : storeHas st.store id = true
  case neg =>
    exact absurd hok (by simp [pause_job, hs])
  case pos =>
  by_cases hsR : storeHas stR.store idR = true
  case neg =>
    exact absurd hokR (by simp [resume_job, hsR])
  case pos =>
  simp only [pause_job, hs, if_true] at hok
  simp only [resume_job, hsR, if_true] at hokR
  injection hok with hok2
  injection hokR with hokR2
  subst hok2
  subst hokR2
  refine ⟨?_, ?_, ?_, ?_, ?_, ?_⟩
  · show regLookup (match regLookup st.jobs id with
      | some sjp => regUpdate st.jobs id { sjp with status := JobStatus.pending }
      | none => st.jobs) id = some { sj with status := JobStatus.pending }
    simp only [hreg]
    exact regLookup_regUpdate_self _ _ _ _ hreg
  · exact storeIds_pausedMap st.store id true
  · exact storeFind_pausedMap st.store id true hs
  · show regLookup (match regLookup stR.jobs idR with
      | some sjp => regUpdate stR.jobs idR { sjp with status := JobStatus.pending }
      | none => stR.jobs) idR = some { sjR with status := JobStatus.pending }
    simp only [hregR]
    exact regLookup_regUpdate_self _ _ _ _ hregR
  · exact storeIds_pausedMap stR.store idR false
  · exact storeFind_pausedMap stR.store idR false hsR

/-- C5 at concrete inputs: pausing `j5` and then resuming it. -/
theorem C5_pause_resume_frame_witness :
    regLookup (applyOp exStD (JobOp.pause "j5")).jobs "j5" =
      some { sampleJob "j5" JobStatus.completed 7 1 with status := JobStatus.pending } ∧
    storeIds (applyOp exStD (JobOp.pause "j5")).store = storeIds exStD.store ∧
    (storeFind (applyOp exStD (JobOp.pause "j5")).store "j5").map (fun e => e.paused) = some true ∧
    regLookup (applyOp exStD (JobOp.resume "j5")).jobs "j5" =
      some { sampleJob "j5" JobStatus.completed 7 1 with status := JobStatus.pending } ∧
    storeIds (applyOp exStD (JobOp.resume "j5")).store = storeIds exStD.store ∧
    (storeFind (applyOp exStD (JobOp.resume "j5")).store "j5").map (fun e => e.paused) = some false := by
  have h := C5_pause_resume_frame exStD "j5" (sampleJob "j5" JobStatus.completed 7 1)
    (applyOp exStD (JobOp.pause "j5"))
    exStD "j5" (sampleJob "j5" JobStatus.completed 7 1)
    (applyOp exStD (JobOp.resume "j5"))
    (by decide) (by rfl) (by decide) (by rfl)
  exact h

/-- Filtering an id out of the store removes every entry with that id. -/
theorem storeHas_filter_out (s : List StoredJob) (i : String) :
    storeHas (s.filter (fun e => e.id != i)) i = false := by
  induction s with
  | nil => rfl
  | cons a t ih =>
    rw [List.filter_cons]
    by_cases ha : a.id = i
    · rw [if_neg (by simp [ha])]
      exact ih
    · rw [if_pos (by simp [ha])]
      simp only [storeHas, List.any_cons] at ih ⊢
      simp [ha, ih]

/-- Concrete state with a single history record. -/
def exStH : SchedulerState :=
  { store := [sampleStored "j1"]
  , jobs := [("j1", sampleJob "j1" JobStatus.pending 5 0)]
  , job_history := [sampleHist "j1" 1] }

/-- C7 counterexample: with one stored record, `get_job_history 0`
returns that record — one entry, which is more than `min 0 1000 = 0` —
because the Python slice `job_history[-0:]` is the whole list.  So the
bound `at most min(limit, 1000)` fails for `limit = 0`. -/
theorem C7_limit_zero_breaks_bound :
    ¬ ((get_job_history exStH 0).length ≤ min 0 1000) := by
  decide

/-- C7 (amended): the execution history is a bounded FIFO — after a
recorded execution event it holds `min (previous + 1) 1000` entries,
the surviving old records being the previous history with the oldest
evicted first and the new record appended last — and for every
`limit ≥ 1`, `get_job_history limit` returns at most `min limit 1000`
entries, namely the most recent ones in most-recent-last order. -/
theorem C7_history_bounded_fifo (st : SchedulerState) (now : Nat) (ev : JobEvent)
    (sj : ScheduledJob) (limit : Nat)
    (hreg : regLookup st.jobs ev.job_id = some sj)
    (hinv : st.job_history.length ≤ 1000)
    (hlim : 1 ≤ limit) :
    (job_executed_listener st now ev).job_history.length =
      min (st.job_history.length + 1) 1000 ∧
    (job_executed_listener st now ev).job_history.dropLast =
      st.job_history.drop (st.job_history.length + 1 - 1000) ∧
    (get_job_history st limit).length ≤ min limit 1000 ∧
    get_job_history st limit = st.job_history.drop (st.job_history.length - limit) := by
  refine ⟨listener_history_len st now ev sj hreg hinv,
    listener_history_dropLast st now ev sj hreg hinv, ?_, ?_⟩
  · unfold get_job_history
    rw [pySliceFrom_neg _ _ hlim, List.length_drop]
    omega
  · unfold get_job_history
    exact pySliceFrom_neg _ _ hlim

/-- C7 at concrete inputs: a failure of `j1` recorded on a one-entry
history, queried with `limit = 1`. -/
theorem C7_history_bounded_fifo_witness :
    (job_executed_listener exStH 7 (failEvent "j1")).job_history.length =
      min (exStH.job_history.length + 1) 1000 ∧
    (job_executed_listener exStH 7 (failEvent "j1")).job_history.dropLast =
      exStH.job_history.drop (exStH.job_history.length + 1 - 1000) ∧
    (get_job_history exStH 1).length ≤ min 1 1000 ∧
    get_job_history exStH 1 = exStH.job_history.drop (exStH.job_history.length - 1) :=
  C7_history_bounded_fifo exStH 7 (failEvent "j1") (sampleJob "j1" JobStatus.pending 5 0) 1
    (by decide) (by decide) (by decide)

/-- C8: removing an id held by the job store returns `true` and removes
the job from both the store and the registry; removing an unknown id
returns `false` with the state unchanged — the underlying
`JobLookupError` is swallowed by `remove_job`, never raised to the
caller. -/
theorem C8_remove_job_idempotent (st1 : SchedulerState) (id1 : String)
    (st2 : SchedulerState) (id2 : String)
    (h1 : storeHas st1.store id1 = true)
    (h2 : storeHas st2.store id2 = false) :
    (remove_job st1 id1).2 = true ∧
    storeHas (remove_job st1 id1).1.store id1 = false ∧
    regLookup (remove_job st1 id1).1.jobs id1 = none ∧
    remove_job st2 id2 = (st2, false) := by
  refine ⟨?_, ?_, ?_, ?_⟩
  · simp [remove_job, h1]
  · simp only [remove_job, h1, if_true]
    exact storeHas_filter_out st1.store id1
  · simp only [remove_job, h1, if_true]
    exact regLookup_filter_self st1.jobs id1
  · simp [remove_job, h2]

/-- C8 at concrete inputs: removing the registered `j1` and the unknown
id `nope`. -/
theorem C8_remove_job_idempotent_witness :
    (remove_job exStA "j1").2 = true ∧
    storeHas (remove_job exStA "j1").1.store "j1" = false ∧
    regLookup (remove_job exStA "j1").1.jobs "j1" = none ∧
    remove_job exStA "nope" = (exStA, false) :=
  C8_remove_job_idempotent exStA "j1" exStA "nope" (by decide) (by decide)

/-- C10: `get_job_history 0` returns the entire stored history — the
Python slice `job_history[-0:]` is `job_history[0:]`, the whole list,
not an empty one — and for every `limit ≥ 1` it returns the last
`limit` entries. -/
theorem C10_limit_zero_full_history (st : SchedulerState) (limit : Nat)
    (hlim : 1 ≤ limit) :
    get_job_history st 0 = st.job_history ∧
    get_job_history st limit = st.job_history.drop (st.job_history.length - limit) := by
  refine ⟨?_, ?_⟩
  · unfold get_job_history
    exact pySliceFrom_zero _
  · unfold get_job_history
    exact pySliceFrom_neg _ _ hlim

/-- C10 at concrete inputs: the one-record history queried with limits 0
and 2. -/
theorem C10_limit_zero_full_history_witness :
    get_job_history exStH 0 = exStH.job_history ∧
    get_job_history exStH 2 = exStH.job_history.drop (exStH.job_history.length - 2) :=
  C10_limit_zero_full_history exStH 2 (by decide)

end Socials
